import Mathlib

/-!
# Verification of the exchange-rates ETL pipeline

Shallow embedding of `src/exchange_rates.py` and
`src/airflow/include/exchange_api_operator.py`.

Modelling choices:
* A rates mapping (the `rates` JSON object) is an ordered association list
  `List (Option String × Rat)`; Python dicts preserve insertion order and
  `[(k, v) for k, v in rates.items()]` enumerates it in that order.  A key is
  `Option String` because pandas `isna` detects only null-like keys (`None` /
  `NaN`), never the empty string.
* Rates are modelled as rationals; the claims only compare them with `0`.
* A pandas DataFrame after column selection is a `RecordSet`: the column
  order plus the list of rows.
* Exceptions become `Except`; the CLI methods, whose bodies are wrapped in
  `try/except Exception: logging.error(...)` and fall through returning
  `None`, become `Option`-valued wrappers around the raising core.
* Object storage (the GCS bucket) is an association list from blob name to
  CSV content; CSV content is a list of rows of cells, the header row first
  (`to_csv(index=False)` writes a header and no index column).
* BigQuery interaction is recorded as a trace of `BqAction`s.
-/

/-- One row of the processed DataFrame after the column selection
`df[['date', 'base', 'currency', 'rate', 'last_update']]`. -/
structure RateRow where
  date : String
  base : String
  currency : Option String
  rate : Rat
  last_update : Nat
  deriving Repr, DecidableEq

/-- A DataFrame: its column order and its rows. -/
structure RecordSet where
  columns : List String
  rows : List RateRow
  deriving Repr, DecidableEq

/-- Errors raised inside `process_data` (`ValueError` in the source; the
spec's taxonomy calls them `ValidationError`). -/
inductive TransformError where
  | validationError (msg : String)
  deriving Repr, DecidableEq

/-- The API failure raised by `get_data` on a non-success HTTP status
(`Exception(f'API error {status_code}: {description}')` in the CLI form,
`AirflowException` with the same message in the operator form). -/
structure ApiError where
  status_code : Nat
  description : String
  deriving Repr, DecidableEq

/-- An HTTP response from the Open Exchange Rates endpoint.  Per the
external-interface contract, a failure body carries a `description` string
and a success body carries the `rates` object. -/
structure HttpResponse where
  ok : Bool
  status_code : Nat
  description : String
  rates : List (Option String × Rat)
  deriving Repr, DecidableEq

/-- The canonical column order `['date', 'base', 'currency', 'rate',
'last_update']` fixed by both `process_data` implementations. -/
def canonicalColumns : List String :=
  ["date", "base", "currency", "rate", "last_update"]

namespace ExchangeRates

/-- The `try:` body of `ExchangeRates.process_data` (identical to the body of
`ExchangeApiOperator.process_data` up to where the operator writes the file):
build the two-column frame from the mapping, raise `ValueError` if any rate
is `< 0`, raise `ValueError` if any currency is na, then add the `date`,
`base` and `last_update` columns and reorder.  `now` is the wall clock read
by `datetime.datetime.now()`. -/
def process_data_core (date base : String) (now : Nat)
    (rates : List (Option String × Rat)) : Except TransformError RecordSet :=
  if rates.any (fun kv => kv.2 < 0) then
    .error (.validationError "Error value in \"rates\" column: value must be bigger than 0.")
  else if rates.any (fun kv => kv.1.isNone) then
    .error (.validationError "Error value in \"currency\" column: currency must not be null.")
  else
    .ok { columns := canonicalColumns,
          rows := rates.map (fun kv =>
            { date := date, base := base, currency := kv.1,
              rate := kv.2, last_update := now }) }

/-- `ExchangeRates.process_data` in the CLI form: the body above wrapped in
`try/except Exception: logging.error(...)`, so any raise is swallowed and the
method returns `None`.  A `None` rates argument (a failed fetch) raises
`AttributeError` on `rates.items()`, which the same handler swallows. -/
def process_data (date base : String) (now : Nat)
    (rates? : Option (List (Option String × Rat))) : Option RecordSet :=
  match rates? with
  | none => none
  | some rates => (process_data_core date base now rates).toOption

end ExchangeRates

/-- C3 counterexample input: a mapping whose only currency key is the empty
string. -/
def emptyKeyMapping : List (Option String × Rat) := [(some "", 1)]

/-- Claim C1: for a mapping with all rates nonnegative and all keys non-empty
strings, `process_data` succeeds; the record set has one row per mapping
entry, every row carries the call's `date` and `base` (and the processing
timestamp), and the columns are exactly
`date, base, currency, rate, last_update`. -/
theorem process_data_valid (date base : String) (now : Nat)
    (rates : List (Option String × Rat))
    (hrate : ∀ kv ∈ rates, 0 ≤ kv.2)
    (hcur : ∀ kv ∈ rates, ∃ s, kv.1 = some s ∧ s ≠ "") :
    ∃ rs, ExchangeRates.process_data_core date base now rates = .ok rs ∧
      rs.rows.length = rates.length ∧
      (∀ r ∈ rs.rows, r.date = date ∧ r.base = base ∧ r.last_update = now) ∧
      rs.columns = canonicalColumns := by
  have hno : rates.any (fun kv => decide (kv.2 < 0)) = false := by
    simp only [List.any_eq_false, decide_eq_true_eq, not_lt]
    exact hrate
  have hna : rates.any (fun kv => kv.1.isNone) = false := by
    simp only [List.any_eq_false]
    intro kv hkv
    obtain ⟨s, hs, _⟩ := hcur kv hkv
    simp [hs]
  refine ⟨{ columns := canonicalColumns,
            rows := rates.map (fun kv =>
              { date := date, base := base, currency := kv.1,
                rate := kv.2, last_update := now }) }, ?_, ?_, ?_, rfl⟩
  · simp [ExchangeRates.process_data_core, hno, hna]
  · simp
  · intro r hr
    simp only [List.mem_map] at hr
    obtain ⟨kv, _, hkv⟩ := hr
    subst hkv
    exact ⟨rfl, rfl, rfl⟩

/-- Witness for `process_data_valid` at the spec's end-to-end scenario 1
input `{"EUR": 0.92, "GBP": 0.79}`. -/
theorem process_data_valid_witness :
    ∃ rs, ExchangeRates.process_data_core "2024-07-04" "USD" 17
        [(some "EUR", (92 : Rat)/100), (some "GBP", (79 : Rat)/100)] = .ok rs ∧
      rs.rows.length = 2 ∧
      (∀ r ∈ rs.rows, r.date = "2024-07-04" ∧ r.base = "USD" ∧ r.last_update = 17) ∧
      rs.columns = canonicalColumns := by
  obtain ⟨rs, h1, h2, h3, h4⟩ :=
    process_data_valid "2024-07-04" "USD" 17
      [(some "EUR", (92 : Rat)/100), (some "GBP", (79 : Rat)/100)]
      (by intro kv hkv; fin_cases hkv <;> norm_num)
      (by
        intro kv hkv
        fin_cases hkv
        · exact ⟨"EUR", rfl, by decide⟩
        · exact ⟨"GBP", rfl, by decide⟩)
  exact ⟨rs, h1, h2.trans rfl, h3, h4⟩

/-- Claim C2: a mapping with at least one strictly negative rate makes the
transformer raise the `ValidationError` for the rate column, and the CLI form
(which swallows the raise) returns no record set at all. -/
theorem process_data_negative_rate (date base : String) (now : Nat)
    (rates : List (Option String × Rat))
    (h : ∃ kv ∈ rates, kv.2 < 0) :
    ExchangeRates.process_data_core date base now rates =
      .error (.validationError
        "Error value in \"rates\" column: value must be bigger than 0.") ∧
    ExchangeRates.process_data date base now (some rates) = none := by
  have hneg : rates.any (fun kv => decide (kv.2 < 0)) = true := by
    simp only [List.any_eq_true, decide_eq_true_eq]
    exact h
  have hcore : ExchangeRates.process_data_core date base now rates =
      .error (.validationError
        "Error value in \"rates\" column: value must be bigger than 0.") := by
    simp [ExchangeRates.process_data_core, hneg]
  exact ⟨hcore, by simp [ExchangeRates.process_data, hcore, Except.toOption]⟩

/-- Witness for `process_data_negative_rate` at the spec's end-to-end
scenario 2 input `{"XXX": -1.0}`. -/
theorem process_data_negative_rate_witness :
    ExchangeRates.process_data_core "2024-07-04" "USD" 0 [(some "XXX", -1)] =
      .error (.validationError
        "Error value in \"rates\" column: value must be bigger than 0.") ∧
    ExchangeRates.process_data "2024-07-04" "USD" 0 (some [(some "XXX", -1)]) = none :=
  process_data_negative_rate "2024-07-04" "USD" 0 [(some "XXX", -1)]
    ⟨(some "XXX", -1), List.mem_singleton.mpr rfl, by norm_num⟩

/-- Claim C3 counterexample: a mapping whose only currency key is the empty
string is NOT rejected — pandas `isna` is false on `""` — so `process_data`
succeeds and returns the row with the empty currency, contradicting the claim
that an empty-string currency key fails with `ValidationError`. -/
theorem process_data_empty_key_counterexample :
    ExchangeRates.process_data_core "2024-07-04" "USD" 0 emptyKeyMapping =
      .ok { columns := canonicalColumns,
            rows := [{ date := "2024-07-04", base := "USD",
                       currency := some "", rate := 1, last_update := 0 }] } ∧
    ExchangeRates.process_data "2024-07-04" "USD" 0 (some emptyKeyMapping) =
      some { columns := canonicalColumns,
             rows := [{ date := "2024-07-04", base := "USD",
                        currency := some "", rate := 1, last_update := 0 }] } := by
  constructor <;> rfl

/-- Claim C3 as amended: only a mapping containing a null currency key fails
with a `ValidationError` (an empty-string key is accepted); the CLI form then
returns no record set.  The message depends on whether the negative-rate
check fired first, but the failure is a `ValidationError` either way. -/
theorem process_data_null_currency (date base : String) (now : Nat)
    (rates : List (Option String × Rat))
    (h : ∃ kv ∈ rates, kv.1 = none) :
    (∃ m, ExchangeRates.process_data_core date base now rates =
        .error (.validationError m)) ∧
    ExchangeRates.process_data date base now (some rates) = none := by
  have hna : rates.any (fun kv => kv.1.isNone) = true := by
    simp only [List.any_eq_true]
    obtain ⟨kv, hkv, hk⟩ := h
    exact ⟨kv, hkv, by simp [hk]⟩
  have hcore : ∃ m, ExchangeRates.process_data_core date base now rates =
      .error (.validationError m) := by
    by_cases hneg : rates.any (fun kv => decide (kv.2 < 0)) = true
    · exact ⟨"Error value in \"rates\" column: value must be bigger than 0.",
        by simp [ExchangeRates.process_data_core, hneg]⟩
    · have hneg' : rates.any (fun kv => decide (kv.2 < 0)) = false := by
        simpa using hneg
      exact ⟨"Error value in \"currency\" column: currency must not be null.",
        by simp [ExchangeRates.process_data_core, hneg', hna]⟩
  obtain ⟨m, hm⟩ := hcore
  exact ⟨⟨m, hm⟩, by simp [ExchangeRates.process_data, hm, Except.toOption]⟩

/-- Witness for `process_data_null_currency` at the mapping with one null
currency key. -/
theorem process_data_null_currency_witness :
    (∃ m, ExchangeRates.process_data_core "2024-07-04" "USD" 0 [(none, 5)] =
        .error (.validationError m)) ∧
    ExchangeRates.process_data "2024-07-04" "USD" 0 (some [(none, 5)]) = none :=
  process_data_null_currency "2024-07-04" "USD" 0 [(none, 5)]
    ⟨(none, 5), List.mem_singleton.mpr rfl, rfl⟩

/-- Claim C10 counterexample: a mapping that does contain a rate of exactly 0
and only non-null currencies, but also contains a negative rate elsewhere, is
rejected — so the claim's quantifier over every such mapping is false. -/
theorem process_data_zero_rate_counterexample :
    ExchangeRates.process_data_core "2024-07-04" "USD" 0
        [(some "AAA", 0), (some "BBB", -1)] =
      .error (.validationError
        "Error value in \"rates\" column: value must be bigger than 0.") ∧
    ExchangeRates.process_data "2024-07-04" "USD" 0
        (some [(some "AAA", 0), (some "BBB", -1)]) = none := by
  constructor <;> rfl

/-- Claim C10 as amended: for a mapping in which some rate is exactly 0, all
rates are nonnegative and all currencies are non-null, the transformer
accepts the mapping and the record set contains the zero-rate row — only
strictly negative rates are rejected by validation. -/
theorem process_data_zero_rate (date base : String) (now : Nat)
    (rates : List (Option String × Rat)) (c : Option String)
    (hrate : ∀ kv ∈ rates, 0 ≤ kv.2)
    (hcur : ∀ kv ∈ rates, kv.1.isSome)
    (hzero : (c, (0 : Rat)) ∈ rates) :
    ∃ rs, ExchangeRates.process_data_core date base now rates = .ok rs ∧
      ({ date := date, base := base, currency := c,
         rate := 0, last_update := now } : RateRow) ∈ rs.rows := by
  have hno : rates.any (fun kv => decide (kv.2 < 0)) = false := by
    simp only [List.any_eq_false, decide_eq_true_eq, not_lt]
    exact hrate
  have hna : rates.any (fun kv => kv.1.isNone) = false := by
    simp only [List.any_eq_false]
    intro kv hkv
    have := hcur kv hkv
    simp [Option.isNone_iff_eq_none]
    intro hk
    rw [hk] at this
    exact absurd this (by simp)
  refine ⟨{ columns := canonicalColumns,
            rows := rates.map (fun kv =>
              { date := date, base := base, currency := kv.1,
                rate := kv.2, last_update := now }) },
      by simp [ExchangeRates.process_data_core, hno, hna], ?_⟩
  exact List.mem_map_of_mem _ hzero

/-- Witness for `process_data_zero_rate` at the singleton zero-rate
mapping. -/
theorem process_data_zero_rate_witness :
    ∃ rs, ExchangeRates.process_data_core "2024-07-04" "USD" 3
        [(some "AAA", 0)] = .ok rs ∧
      ({ date := "2024-07-04", base := "USD", currency := some "AAA",
         rate := 0, last_update := 3 } : RateRow) ∈ rs.rows :=
  process_data_zero_rate "2024-07-04" "USD" 3 [(some "AAA", 0)] (some "AAA")
    (by intro kv hkv; fin_cases hkv; norm_num)
    (by intro kv hkv; fin_cases hkv; rfl)
    (List.mem_singleton.mpr rfl)

namespace ExchangeRates

/-- The `try:` body of `ExchangeRates.get_data`: on a non-success HTTP
status, raise `Exception(f'API error {result.status_code}:
{result.json()["description"]}')`; on success return the `rates` object of
the JSON body. -/
def get_data_core (r : HttpResponse) :
    Except ApiError (List (Option String × Rat)) :=
  if !r.ok then .error { status_code := r.status_code, description := r.description }
  else .ok r.rates

/-- `ExchangeRates.get_data` in the CLI form: the raising body wrapped in
`try/except Exception: logging.error(...)`, so a failed fetch returns
`None` instead of propagating. -/
def get_data (r : HttpResponse) : Option (List (Option String × Rat)) :=
  (get_data_core r).toOption

end ExchangeRates

namespace ExchangeApiOperator

/-- `ExchangeApiOperator.get_data`: on a non-success HTTP status raise
`AirflowException` with the status code and the body's `description`;
on success return the response object itself. -/
def get_data (r : HttpResponse) : Except ApiError HttpResponse :=
  if !r.ok then .error { status_code := r.status_code, description := r.description }
  else .ok r

end ExchangeApiOperator

/-- Claim C4: on every non-success HTTP response, both fetchers fail with an
API error carrying the response's status code and the body's `description`;
the CLI form (which logs the raise) returns no rates mapping. -/
theorem get_data_api_error (r : HttpResponse) (h : r.ok = false) :
    ExchangeRates.get_data_core r =
      .error { status_code := r.status_code, description := r.description } ∧
    ExchangeRates.get_data r = none ∧
    ExchangeApiOperator.get_data r =
      .error { status_code := r.status_code, description := r.description } := by
  refine ⟨?_, ?_, ?_⟩
  · simp [ExchangeRates.get_data_core, h]
  · simp [ExchangeRates.get_data, ExchangeRates.get_data_core, h, Except.toOption]
  · simp [ExchangeApiOperator.get_data, h]

/-- A concrete 403 response, used as the `get_data_api_error` witness
input. -/
def resp403 : HttpResponse :=
  { ok := false, status_code := 403, description := "Invalid App ID", rates := [] }

/-- Witness for `get_data_api_error` at a concrete 403 response. -/
theorem get_data_api_error_witness :
    ExchangeRates.get_data_core resp403 =
      .error { status_code := 403, description := "Invalid App ID" } ∧
    ExchangeRates.get_data resp403 = none ∧
    ExchangeApiOperator.get_data resp403 =
      .error { status_code := 403, description := "Invalid App ID" } :=
  get_data_api_error resp403 rfl

/-- CSV content: a list of rows of cell strings; the header row comes
first. -/
abbrev Csv := List (List String)

/-- The GCS bucket: an association list from blob name to CSV content, in
listing order. -/
abbrev Storage := List (String × Csv)

/-- Overwrite-or-create the object at key `k` (GCS object upload
semantics: `blob.upload_from_string` replaces any existing object). -/
def Storage.set : Storage → String → Csv → Storage
  | [], k, v => [(k, v)]
  | (k', v') :: rest, k, v =>
      if k' = k then (k, v) :: rest else (k', v') :: Storage.set rest k v

/-- Read the object stored at key `k`, if any. -/
def Storage.get? : Storage → String → Option Csv
  | [], _ => none
  | (k', v) :: rest, k => if k' = k then some v else Storage.get? rest k

/-- `s` starts with `p` (Python `str.startswith`). -/
def strStartsWith (s p : String) : Bool :=
  s.data.take p.data.length == p.data

/-- The cells of one CSV data row, in the frame's column order; pandas
writes a null cell as the empty string and no index column is emitted
(`index=False`). -/
def rowCells (r : RateRow) : List String :=
  [r.date, r.base, (match r.currency with | none => "" | some s => s),
   toString r.rate, toString r.last_update]

/-- `data.to_csv(...)`: header row (the frame's columns) followed by one
line per row, no index column. -/
def to_csv (rs : RecordSet) : Csv :=
  rs.columns :: rs.rows.map rowCells

/-- The object name written by the sink:
`f'data/{date}/exchange_rates_{date}.csv'`. -/
def blob_name (date : String) : String :=
  "data/" ++ date ++ "/exchange_rates_" ++ date ++ ".csv"

namespace ExchangeRates

/-- `ExchangeRates.load_file_to_bucket`: serialize the frame with
`to_csv(index=False)` and upload it at `data/{date}/exchange_rates_{date}.csv`.
A `None` frame (a failed upstream step) raises `AttributeError` on
`data.to_csv`, which the method's own `try/except` swallows, leaving the
bucket untouched. -/
def load_file_to_bucket (date : String) (data? : Option RecordSet)
    (st : Storage) : Storage :=
  match data? with
  | none => st
  | some data => Storage.set st (blob_name date) (to_csv data)

end ExchangeRates

lemma storage_get_set (st : Storage) (k : String) (v : Csv) :
    Storage.get? (Storage.set st k v) k = some v := by
  induction st with
  | nil => simp [Storage.set, Storage.get?]
  | cons kv rest ih =>
      obtain ⟨k', v'⟩ := kv
      by_cases hk : k' = k
      · simp [Storage.set, Storage.get?, hk]
      · simp [Storage.set, Storage.get?, hk, ih]

/-- Claim C8: for every date and record set in the canonical column order,
the sink writes, at `data/{date}/exchange_rates_{date}.csv`, a CSV whose
first row is the header `date, base, currency, rate, last_update`, followed
by exactly one line of five cells per record-set row (no index column) —
overwriting whatever object was previously stored at that path. -/
theorem load_file_to_bucket_spec (date : String) (rs : RecordSet)
    (st : Storage) (hcols : rs.columns = canonicalColumns) :
    Storage.get? (ExchangeRates.load_file_to_bucket date (some rs) st)
        (blob_name date) = some (to_csv rs) ∧
    (to_csv rs).head? = some canonicalColumns ∧
    (to_csv rs).length = rs.rows.length + 1 ∧
    ∀ row ∈ (to_csv rs).tail, row.length = canonicalColumns.length := by
  refine ⟨?_, ?_, ?_, ?_⟩
  · exact storage_get_set st (blob_name date) (to_csv rs)
  · simp [to_csv, hcols]
  · simp [to_csv]
  · intro row hrow
    simp only [to_csv, List.tail_cons, List.mem_map] at hrow
    obtain ⟨r, _, hr⟩ := hrow
    subst hr
    rfl

/-- A concrete one-row record set in canonical column order, used in the
`load_file_to_bucket_spec` witness. -/
def demoRecordSet : RecordSet :=
  { columns := canonicalColumns,
    rows := [{ date := "2024-07-04", base := "USD", currency := some "EUR",
               rate := 1, last_update := 0 }] }

/-- A bucket that already holds an object at the sink's destination path,
used in the `load_file_to_bucket_spec` witness. -/
def demoBucket : Storage :=
  [(blob_name "2024-07-04", [["stale"]])]

/-- Witness for `load_file_to_bucket_spec`: a one-row record set written over
a bucket that already holds an object at the destination path. -/
theorem load_file_to_bucket_spec_witness :
    Storage.get? (ExchangeRates.load_file_to_bucket "2024-07-04"
        (some demoRecordSet) demoBucket) (blob_name "2024-07-04") =
      some (to_csv demoRecordSet) ∧
    (to_csv demoRecordSet).head? = some canonicalColumns ∧
    (to_csv demoRecordSet).length = 2 ∧
    ∀ row ∈ (to_csv demoRecordSet).tail, row.length = canonicalColumns.length := by
  obtain ⟨h1, h2, h3, h4⟩ :=
    load_file_to_bucket_spec "2024-07-04" demoRecordSet demoBucket rfl
  exact ⟨h1, h2, h3.trans rfl, h4⟩

/-- An operation issued against BigQuery by the loader. -/
inductive BqAction where
  | deleteTable (table : String) (not_found_ok : Bool)
  | loadTable (uri : String) (table : String) (write_disposition : String)
  deriving Repr, DecidableEq

/-- `storage_client.list_blobs(bucket, prefix=...)`: the names of the
objects under the given name stem, in listing order. -/
def list_blobs (st : Storage) (stem : String) : List String :=
  (st.map Prod.fst).filter (fun n => strStartsWith n stem)

/-- `date.replace('-', '')`: the date with separators stripped, used as the
table-name suffix. -/
def date_index (date : String) : String :=
  ⟨date.data.filter (fun c => c ≠ '-')⟩

/-- The destination table of `from_gcs_to_biguery`:
`f'exchange_rates.exchange_rates_{date_index}'`. -/
def bq_table (date : String) : String :=
  "exchange_rates.exchange_rates_" ++ date_index date

namespace ExchangeRates

/-- `ExchangeRates.from_gcs_to_biguery`, recorded as the sequence of
BigQuery operations it issues: list the objects under `data/{date}/`; if at
least one exists, delete the date-named destination table
(`not_found_ok=True`) and then issue one `WRITE_APPEND` load job per listed
object, in listing order; otherwise issue nothing.  (The schema fetch is a
storage read, not a BigQuery operation, and is elided from the trace.) -/
def from_gcs_to_biguery (bucket_id date : String) (st : Storage) :
    List BqAction :=
  let blobs := list_blobs st ("data/" ++ date ++ "/")
  if blobs.length > 0 then
    BqAction.deleteTable (bq_table date) true ::
      blobs.map (fun b =>
        BqAction.loadTable ("gs://" ++ bucket_id ++ "/" ++ b) (bq_table date)
          "WRITE_APPEND")
  else []

end ExchangeRates

lemma from_gcs_nonempty (bucket_id date : String) (st : Storage)
    (h : list_blobs st ("data/" ++ date ++ "/") ≠ []) :
    ExchangeRates.from_gcs_to_biguery bucket_id date st =
      BqAction.deleteTable (bq_table date) true ::
        (list_blobs st ("data/" ++ date ++ "/")).map (fun b =>
          BqAction.loadTable ("gs://" ++ bucket_id ++ "/" ++ b) (bq_table date)
            "WRITE_APPEND") := by
  have hl : 0 < (list_blobs st ("data/" ++ date ++ "/")).length :=
    List.length_pos.mpr h
  simp [ExchangeRates.from_gcs_to_biguery, hl]

lemma from_gcs_empty (bucket_id date : String) (st : Storage)
    (h : list_blobs st ("data/" ++ date ++ "/") = []) :
    ExchangeRates.from_gcs_to_biguery bucket_id date st = [] := by
  simp [ExchangeRates.from_gcs_to_biguery, h]

/-- Claim C6: when at least one object is listed under `data/{date}/`, the
loader first deletes the destination table named from the date with the
separators stripped (if it exists — `not_found_ok`) and then issues exactly
one append load job per listed object, in listing order; when no object is
listed, it issues no BigQuery operation at all. -/
theorem from_gcs_to_biguery_spec (bucket_id date : String) (st : Storage) :
    (list_blobs st ("data/" ++ date ++ "/") ≠ [] →
      ExchangeRates.from_gcs_to_biguery bucket_id date st =
        BqAction.deleteTable (bq_table date) true ::
          (list_blobs st ("data/" ++ date ++ "/")).map (fun b =>
            BqAction.loadTable ("gs://" ++ bucket_id ++ "/" ++ b)
              (bq_table date) "WRITE_APPEND")) ∧
    (list_blobs st ("data/" ++ date ++ "/") = [] →
      ExchangeRates.from_gcs_to_biguery bucket_id date st = []) :=
  ⟨from_gcs_nonempty bucket_id date st, from_gcs_empty bucket_id date st⟩

/-- A bucket holding two CSV objects under the `data/2024-07-04/` stem plus
one unrelated object, used in the `from_gcs_to_biguery_spec` witness. -/
def demoBucketTwo : Storage :=
  [("data/2024-07-04/exchange_rates_2024-07-04.csv", []),
   ("data/2024-07-04/extra.csv", []),
   ("schemes/exchange_rates_schema.json", [])]

/-- Witness for `from_gcs_to_biguery_spec`: the spec's end-to-end scenario 3
(two objects under the date stem: delete then two append loads in listing
order) and the empty-bucket case (no operation). -/
theorem from_gcs_to_biguery_spec_witness :
    ExchangeRates.from_gcs_to_biguery "bucket" "2024-07-04" demoBucketTwo =
      [BqAction.deleteTable "exchange_rates.exchange_rates_20240704" true,
       BqAction.loadTable
         "gs://bucket/data/2024-07-04/exchange_rates_2024-07-04.csv"
         "exchange_rates.exchange_rates_20240704" "WRITE_APPEND",
       BqAction.loadTable "gs://bucket/data/2024-07-04/extra.csv"
         "exchange_rates.exchange_rates_20240704" "WRITE_APPEND"] ∧
    ExchangeRates.from_gcs_to_biguery "bucket" "2024-07-04" [] = [] := by
  constructor
  · exact ((from_gcs_to_biguery_spec "bucket" "2024-07-04" demoBucketTwo).1
      (by decide)).trans (by decide)
  · exact (from_gcs_to_biguery_spec "bucket" "2024-07-04" []).2 rfl

/-- One pipeline-stage invocation in the batch CLI's per-date loop, over an
arbitrary date type `D`. -/
inductive Step (D : Type) where
  | fetch (date : D)
  | transform (date : D)
  | sink (date : D)
  | loader (date : D)
  deriving Repr, DecidableEq

/-- One iteration of the batch CLI's `for date in dates:` body:
`get_data`, `process_data`, `load_file_to_bucket`, `from_gcs_to_biguery`,
each called unconditionally (each of the first three swallows its own
errors).  `toS` renders a date for URL/path/table naming; `api` is the
external API's response for a date.  Returns the bucket state after the
iteration and the BigQuery operations issued by the loader. -/
def run_date {D : Type} (toS : D → String) (bucket_id : String)
    (api : D → HttpResponse) (now : Nat) (d : D) (st : Storage) :
    Storage × List BqAction :=
  let rates := ExchangeRates.get_data (api d)
  let processed := ExchangeRates.process_data (toS d) "USD" now rates
  let st2 := ExchangeRates.load_file_to_bucket (toS d) processed st
  (st2, ExchangeRates.from_gcs_to_biguery bucket_id (toS d) st2)

/-- The batch CLI's per-date loop over a date list: sequential and
synchronous, threading the bucket state; also records the trace of stage
invocations and the concatenated BigQuery operations. -/
def run_dates {D : Type} (toS : D → String) (bucket_id : String)
    (api : D → HttpResponse) (now : Nat) (dates : List D) (st : Storage) :
    Storage × List (Step D) × List BqAction :=
  match dates with
  | [] => (st, [], [])
  | d :: ds =>
      let r1 := run_date toS bucket_id api now d st
      let rest := run_dates toS bucket_id api now ds r1.1
      (rest.1,
       Step.fetch d :: Step.transform d :: Step.sink d :: Step.loader d ::
         rest.2.1,
       r1.2 ++ rest.2.2)

lemma run_dates_steps {D : Type} (toS : D → String) (bucket_id : String)
    (api : D → HttpResponse) (now : Nat) (dates : List D) (st : Storage) :
    (run_dates toS bucket_id api now dates st).2.1 =
      dates.flatMap (fun d =>
        [Step.fetch d, Step.transform d, Step.sink d, Step.loader d]) := by
  induction dates generalizing st with
  | nil => rfl
  | cons d ds ih => simp [run_dates, ih]

lemma run_date_failed {D : Type} (toS : D → String) (bucket_id : String)
    (api : D → HttpResponse) (now : Nat) (d : D) (st : Storage)
    (hfail : ExchangeRates.process_data (toS d) "USD" now
      (ExchangeRates.get_data (api d)) = none) :
    run_date toS bucket_id api now d st =
      (st, ExchangeRates.from_gcs_to_biguery bucket_id (toS d) st) := by
  simp [run_date, hfail, ExchangeRates.load_file_to_bucket]

/-- Claim C5: in the batch CLI loop, when a date's fetch or transform fails
(the failing method swallows and logs its own error, surfacing as a missing
frame), the bucket is left untouched for that date — no object is written —
and the loop goes on to process the remaining dates from that same state
instead of aborting the range. -/
theorem cli_failed_date_skipped {D : Type} (toS : D → String)
    (bucket_id : String) (api : D → HttpResponse) (now : Nat) (d : D)
    (ds : List D) (st : Storage)
    (hfail : ExchangeRates.process_data (toS d) "USD" now
      (ExchangeRates.get_data (api d)) = none) :
    (run_date toS bucket_id api now d st).1 = st ∧
    (run_dates toS bucket_id api now (d :: ds) st).1 =
      (run_dates toS bucket_id api now ds st).1 ∧
    (run_dates toS bucket_id api now (d :: ds) st).2.1 =
      Step.fetch d :: Step.transform d :: Step.sink d :: Step.loader d ::
        (run_dates toS bucket_id api now ds st).2.1 := by
  have h1 := run_date_failed toS bucket_id api now d st hfail
  refine ⟨by rw [h1], ?_, ?_⟩
  · show (run_dates toS bucket_id api now ds
        (run_date toS bucket_id api now d st).1).1 = _
    rw [h1]
  · show Step.fetch d :: Step.transform d :: Step.sink d :: Step.loader d ::
        (run_dates toS bucket_id api now ds
          (run_date toS bucket_id api now d st).1).2.1 = _
    rw [h1]

/-- The API behavior used in the loop witnesses: every date answers `200 OK`
with the single negative rate `{"XXX": -1.0}`, so every transform fails. -/
def negApi : String → HttpResponse :=
  fun _ => { ok := true, status_code := 200, description := "",
             rates := [(some "XXX", -1)] }

/-- Witness for `cli_failed_date_skipped`: over the failed date
`2024-07-04` followed by `2024-07-05`, starting from the empty bucket. -/
theorem cli_failed_date_skipped_witness :
    (run_date (fun d => d) "bucket" negApi 0 "2024-07-04" []).1 = [] ∧
    (run_dates (fun d => d) "bucket" negApi 0 ["2024-07-04", "2024-07-05"] []).1 =
      (run_dates (fun d => d) "bucket" negApi 0 ["2024-07-05"] []).1 ∧
    (run_dates (fun d => d) "bucket" negApi 0 ["2024-07-04", "2024-07-05"] []).2.1 =
      Step.fetch "2024-07-04" :: Step.transform "2024-07-04" ::
        Step.sink "2024-07-04" :: Step.loader "2024-07-04" ::
        (run_dates (fun d => d) "bucket" negApi 0 ["2024-07-05"] []).2.1 :=
  cli_failed_date_skipped (fun d => d) "bucket" negApi 0 "2024-07-04"
    ["2024-07-05"] [] (by decide)

/-- `pendulum.interval(start_date, end_date).range('days')`: every calendar
day of the closed interval, in ascending order, with days modelled as day
ordinals. -/
def dateRange (s e : Nat) : List Nat :=
  (List.range (e + 1 - s)).map (s + ·)

/-- Claim C7: for `start_date ≤ end_date`, the batch CLI enumerates every
calendar date of the closed interval — `end - start + 1` of them, each
exactly once (the enumeration has no duplicates), in strictly ascending
order — and its sequential loop invokes fetch, transform, sink and loader
once per enumerated date, in that per-date order, with no interleaving. -/
theorem cli_date_range_spec (s e : Nat) (toS : Nat → String)
    (bucket_id : String) (api : Nat → HttpResponse) (now : Nat)
    (st : Storage) (h : s ≤ e) :
    (dateRange s e).length = e - s + 1 ∧
    (∀ d, d ∈ dateRange s e ↔ s ≤ d ∧ d ≤ e) ∧
    List.Pairwise (· < ·) (dateRange s e) ∧
    (dateRange s e).Nodup ∧
    (run_dates toS bucket_id api now (dateRange s e) st).2.1 =
      (dateRange s e).flatMap (fun d =>
        [Step.fetch d, Step.transform d, Step.sink d, Step.loader d]) := by
  have hpw : List.Pairwise (· < ·) (dateRange s e) := by
    refine (List.pairwise_lt_range _).map (s + ·) ?_
    intro a b hab
    show s + a < s + b
    omega
  refine ⟨?_, ?_, hpw, hpw.imp (fun hab => Nat.ne_of_lt hab), ?_⟩
  · simp only [dateRange, List.length_map, List.length_range]
    omega
  · intro d
    simp only [dateRange, List.mem_map, List.mem_range]
    constructor
    · rintro ⟨a, ha, rfl⟩
      omega
    · rintro ⟨h1, h2⟩
      exact ⟨d - s, by omega, by omega⟩
  · exact run_dates_steps toS bucket_id api now (dateRange s e) st

/-- Witness for `cli_date_range_spec` over the interval `[1, 3]` (the spec's
three-day backfill example). -/
theorem cli_date_range_spec_witness :
    (dateRange 1 3).length = 3 ∧
    (∀ d, d ∈ dateRange 1 3 ↔ 1 ≤ d ∧ d ≤ 3) ∧
    List.Pairwise (· < ·) (dateRange 1 3) ∧
    (dateRange 1 3).Nodup ∧
    (run_dates (fun _ => "d") "bucket" (fun _ => resp403) 0 (dateRange 1 3)
        []).2.1 =
      (dateRange 1 3).flatMap (fun d =>
        [Step.fetch d, Step.transform d, Step.sink d, Step.loader d]) := by
  obtain ⟨h1, h2, h3, h4, h5⟩ :=
    cli_date_range_spec 1 3 (fun _ => "d") "bucket" (fun _ => resp403) 0 []
      (by decide)
  exact ⟨h1.trans rfl, h2, h3, h4, h5⟩

/-- Claim C9 counterexample: the date `2024-07-04` fails in transform (the
API answered a negative rate) and nothing exists under the date's storage
stem, and then the loader issues no BigQuery operation at all — in
particular the destination table is not deleted, so a failed date's table is
not unconditionally "deleted and rebuilt". -/
theorem cli_loader_failed_date_counterexample :
    ExchangeRates.process_data "2024-07-04" "USD" 0
      (ExchangeRates.get_data (negApi "2024-07-04")) = none ∧
    (run_date (fun d => d) "bucket" negApi 0 "2024-07-04" []).2 = [] := by
  constructor <;> rfl

/-- Claim C9 as amended: the batch CLI invokes the loader for every date of
the range even when that date's fetch or transform failed; for such a failed
date the loader acts on the untouched bucket state, so it deletes and
rebuilds the date's destination table from the objects already stored under
the date's stem exactly when at least one such object exists (and issues
nothing when none does). -/
theorem cli_loader_runs_every_date {D : Type} (toS : D → String)
    (bucket_id : String) (api : D → HttpResponse) (now : Nat)
    (dates : List D) (st : Storage) (d : D) (hd : d ∈ dates)
    (hfail : ExchangeRates.process_data (toS d) "USD" now
      (ExchangeRates.get_data (api d)) = none) :
    Step.loader d ∈ (run_dates toS bucket_id api now dates st).2.1 ∧
    (run_date toS bucket_id api now d st).2 =
      ExchangeRates.from_gcs_to_biguery bucket_id (toS d) st ∧
    (list_blobs st ("data/" ++ toS d ++ "/") ≠ [] →
      (run_date toS bucket_id api now d st).2 =
        BqAction.deleteTable (bq_table (toS d)) true ::
          (list_blobs st ("data/" ++ toS d ++ "/")).map (fun b =>
            BqAction.loadTable ("gs://" ++ bucket_id ++ "/" ++ b)
              (bq_table (toS d)) "WRITE_APPEND")) := by
  have hacts : (run_date toS bucket_id api now d st).2 =
      ExchangeRates.from_gcs_to_biguery bucket_id (toS d) st := by
    rw [run_date_failed toS bucket_id api now d st hfail]
  refine ⟨?_, hacts, ?_⟩
  · rw [run_dates_steps]
    simp only [List.mem_flatMap]
    exact ⟨d, hd, by simp⟩
  · intro hne
    rw [hacts]
    exact from_gcs_nonempty bucket_id (toS d) st hne

/-- A bucket already holding one object under the `data/2024-07-04/` stem,
used in the `cli_loader_runs_every_date` witness. -/
def demoOldBucket : Storage :=
  [("data/2024-07-04/old.csv", [])]

/-- Witness for `cli_loader_runs_every_date`: the single failed date
`2024-07-04` with one pre-existing object under its stem — the loader step
still runs and rebuilds the table from that object. -/
theorem cli_loader_runs_every_date_witness :
    Step.loader "2024-07-04" ∈
      (run_dates (fun d => d) "bucket" negApi 0 ["2024-07-04"]
        demoOldBucket).2.1 ∧
    (run_date (fun d => d) "bucket" negApi 0 "2024-07-04" demoOldBucket).2 =
      ExchangeRates.from_gcs_to_biguery "bucket" "2024-07-04" demoOldBucket ∧
    (run_date (fun d => d) "bucket" negApi 0 "2024-07-04" demoOldBucket).2 =
      [BqAction.deleteTable "exchange_rates.exchange_rates_20240704" true,
       BqAction.loadTable "gs://bucket/data/2024-07-04/old.csv"
         "exchange_rates.exchange_rates_20240704" "WRITE_APPEND"] := by
  obtain ⟨h1, h2, h3⟩ :=
    cli_loader_runs_every_date (fun d => d) "bucket" negApi 0 ["2024-07-04"]
      demoOldBucket "2024-07-04" (List.mem_singleton.mpr rfl) (by decide)
  exact ⟨h1, h2, (h3 (by decide)).trans (by decide)⟩
